import Mathlib

/-!
Verification of the localcal-monorepo calendar code against its
natural-language specification.

The first part embeds the implemented TypeScript modules:
`src/localcal-ui/src/types/calendar.ts`,
`src/localcal-ui/src/lib/google-calendar.ts` and
`src/localcal-ui/src/app/api/events/route.ts`.
Network fetch is modelled by passing the upstream HTTP response (or a
request-to-response function) explicitly; the clock is a `Nat` of
milliseconds passed explicitly; thrown exceptions become `Except.error`
carrying the thrown `Error`'s message string.

The second part models the Event Reconciler, which the specification
describes but the current snapshot does not implement; those definitions
are marked `Modelled from the spec:`.
-/

namespace LocalCal

/-- Normalized calendar event, from the `CalendarEvent` interface of
`src/localcal-ui/src/types/calendar.ts`: `id`, `title`, `start`, `end`,
optional `description` and `location`. -/
structure CalendarEvent where
  id : String
  title : String
  start : String
  «end» : String
  description : Option String
  location : Option String
deriving DecidableEq

/-- The `start`/`end` payload of an upstream Google event:
`{ dateTime?: string; date?: string }` from `calendar.ts`. -/
structure EventDateTime where
  dateTime : Option String
  date : Option String
deriving DecidableEq

/-- Upstream Google event, from the `GoogleCalendarEvent` interface of
`calendar.ts`.  The interface declares `summary : string`, but runtime
payloads may omit it (the unit tests send events without `summary` and the
code guards with `event.summary || ...`), so it is embedded as an
`Option String`; `none` is JavaScript `undefined`. -/
structure GoogleCalendarEvent where
  id : String
  summary : Option String
  start : EventDateTime
  «end» : EventDateTime
  description : Option String
  location : Option String
deriving DecidableEq

/-- JavaScript `a || b` where `a : string | undefined` and `b : string`:
`a` is returned when it is truthy (present and non-empty), otherwise `b`. -/
def jsOr (a : Option String) (b : String) : String :=
  match a with
  | some s => if s = "" then b else s
  | none => b

/-- One normalized event, the body of the `.map` in
`fetchGoogleCalendarEvents` (google-calendar.ts lines 27-34):
`title := summary || '(No title)'`,
`start := start.dateTime || start.date || ''`, and likewise for `end`. -/
def normalizeEvent (e : GoogleCalendarEvent) : CalendarEvent :=
  { id := e.id
    title := jsOr e.summary "(No title)"
    start := jsOr e.start.dateTime (jsOr e.start.date "")
    «end» := jsOr e.«end».dateTime (jsOr e.«end».date "")
    description := e.description
    location := e.location }

/-- The request `fetchGoogleCalendarEvents` issues: query parameters and
the bearer token (google-calendar.ts lines 6-19).  `timeMinMs`/`timeMaxMs`
are the instants serialized by `toISOString`, kept as milliseconds. -/
structure EventsRequest where
  timeMinMs : Nat
  timeMaxMs : Nat
  singleEvents : String
  orderBy : String
  bearerToken : String
deriving DecidableEq

/-- Request construction from google-calendar.ts lines 6-19:
`timeMin = now`, `timeMax = Date.now() + 90 * 24 * 60 * 60 * 1000`,
`singleEvents = 'true'`, `orderBy = 'startTime'`,
`Authorization: Bearer accessToken`. -/
def buildEventsRequest (accessToken : String) (nowMs : Nat) : EventsRequest :=
  { timeMinMs := nowMs
    timeMaxMs := nowMs + 90 * 24 * 60 * 60 * 1000
    singleEvents := "true"
    orderBy := "startTime"
    bearerToken := "Bearer " ++ accessToken }

/-- Upstream HTTP response as the code observes it: `status`, and the JSON
body's `items` field (`none` models a body whose `items` is absent, null or
undefined). -/
structure HttpResponse where
  status : Nat
  items : Option (List GoogleCalendarEvent)
deriving DecidableEq

/-- The web platform's `Response.ok`: status in the inclusive range
200..299. -/
def HttpResponse.ok (r : HttpResponse) : Bool :=
  decide (200 ≤ r.status ∧ r.status ≤ 299)

/-- Message of the single `Error` thrown by `fetchGoogleCalendarEvents`
(google-calendar.ts line 22). -/
def genericApiError (status : Nat) : String :=
  "Google Calendar API error: " ++ toString status

/-- Shallow embedding of `fetchGoogleCalendarEvents`
(google-calendar.ts lines 3-35).  `upstream` is the network: it maps the
issued request to the HTTP response.  A thrown exception is
`Except.error` of the thrown message; otherwise the result is
`(data.items || []).map normalizeEvent`. -/
def fetchGoogleCalendarEvents (accessToken : String) (nowMs : Nat)
    (upstream : EventsRequest → HttpResponse) :
    Except String (List CalendarEvent) :=
  let res := upstream (buildEventsRequest accessToken nowMs)
  if !res.ok then
    Except.error (genericApiError res.status)
  else
    Except.ok ((res.items.getD []).map normalizeEvent)

/-- The exhaustive list of a normalized event's components, in field
order.  `fieldValues_injective` below proves these six components carry
the record's entire information. -/
def CalendarEvent.fieldValues (e : CalendarEvent) : List (Option String) :=
  [some e.id, some e.title, some e.start, some e.«end», e.description, e.location]

/-- Session shape used by the route handler: `session.accessToken` is set
by the NextAuth session callback and may be absent. -/
structure Session where
  accessToken : Option String
deriving DecidableEq

/-- JavaScript truthiness of a `string | undefined` value: truthy iff
present and non-empty. -/
def jsTruthy (o : Option String) : Bool :=
  match o with
  | some s => !(s == "")
  | none => false

/-- Body of the route handler's JSON response: either an error object
or the events list. -/
inductive RouteBody where
  | errJson (msg : String)
  | eventsJson (evs : List CalendarEvent)
deriving DecidableEq

/-- Outcome of the route handler: HTTP status, JSON body, and whether the
provider fetch was invoked on the way. -/
structure RouteResult where
  status : Nat
  body : RouteBody
  fetchCalled : Bool
deriving DecidableEq

/-- Shallow embedding of the `GET` handler of
`src/localcal-ui/src/app/api/events/route.ts`.  `fetchResult` is the
outcome `fetchGoogleCalendarEvents` would produce (`Except.error` models a
throw); the guard `!session?.accessToken` sends a falsy token (absent
session, absent token, or empty-string token) to the 401 branch before the
fetch is invoked, and the `try/catch` turns a throw into a 500. -/
def GET (session : Option Session) (fetchResult : Except String (List CalendarEvent)) :
    RouteResult :=
  if jsTruthy (session.bind Session.accessToken) then
    match fetchResult with
    | Except.ok evs => { status := 200, body := RouteBody.eventsJson evs, fetchCalled := true }
    | Except.error _ =>
        { status := 500, body := RouteBody.errJson "Failed to fetch events", fetchCalled := true }
  else
    { status := 401, body := RouteBody.errJson "Unauthorized", fetchCalled := false }

/-! The Event Reconciler (spec §4.2) is described by the specification but
not implemented in the current snapshot; the definitions below are
modelled from the spec's words. -/

/-- Modelled from the spec: the `source` tag of a stored event, one of
`local | google | icloud` (spec §3, CalendarEvent). -/
inductive EventSource where
  | «local»
  | google
  | icloud
deriving DecidableEq

/-- Modelled from the spec: the stored/fetched event shape the Reconciler
operates on (spec §3 CalendarEvent): stable `id`, `userId`, the five
content fields compared for updates (`title`, `startAt`, `endAt`,
`description`, `location`), the `source` tag, the matching key
`sourceEventId`, and `updatedAt`. -/
structure StoredEvent where
  id : String
  userId : String
  title : String
  startAt : String
  endAt : String
  description : Option String
  location : Option String
  source : EventSource
  sourceEventId : Option String
  updatedAt : Nat
deriving DecidableEq

/-- Modelled from the spec: the changeset `{toInsert, toUpdate, toDelete}`
produced by reconciliation (spec §4.2). -/
structure Changeset where
  toInsert : List StoredEvent
  toUpdate : List StoredEvent
  toDelete : List StoredEvent
deriving DecidableEq

/-- The events of a list that are not user-authored local events; the
Reconciler never places local events in a changeset (spec §4.2). -/
def nonLocal (l : List StoredEvent) : List StoredEvent :=
  l.filter (fun e => decide (e.source ≠ EventSource.«local»))

/-- Lookup by the Reconciler's matching key `sourceEventId`
(spec §4.2). -/
def findByKey (l : List StoredEvent) (k : Option String) : Option StoredEvent :=
  l.find? (fun e => decide (e.sourceEventId = k))

/-- Equality on the five content fields whose difference makes an update
(spec §4.2: title, start, end, description, location). -/
def sameFields (a b : StoredEvent) : Bool :=
  decide (a.title = b.title ∧ a.startAt = b.startAt ∧ a.endAt = b.endAt ∧
    a.description = b.description ∧ a.location = b.location)

/-- The update entry a fetched event contributes: `none` when its key is
absent from the stored set or the content fields already agree, otherwise
the full replacement keeping the stored row's stable `id` with `updatedAt`
refreshed to `now` (spec §4.2). -/
def reconcileUpdate (provStored : List StoredEvent) (now : Nat) (f : StoredEvent) :
    Option StoredEvent :=
  match findByKey provStored f.sourceEventId with
  | none => none
  | some st =>
      if sameFields st f then none
      else some { f with id := st.id, updatedAt := now }

/-- Modelled from the spec: the Event Reconciler (spec §4.2), a pure
function from the stored events for `(userId, source)` and the freshly
fetched set to a changeset.  Matching key `sourceEventId`:
fetched-but-not-stored is an insert; present in both with any content
field difference is an update (full replace, stable `id` kept, `updatedAt`
refreshed to `now`); stored-but-not-fetched is a delete.  Local events are
never part of the changeset. -/
def reconcile (stored fetched : List StoredEvent) (now : Nat) : Changeset :=
  { toInsert := fetched.filter (fun f =>
      decide (findByKey (nonLocal stored) f.sourceEventId = none))
    toUpdate := fetched.filterMap (reconcileUpdate (nonLocal stored) now)
    toDelete := (nonLocal stored).filter (fun st =>
      decide (findByKey fetched st.sourceEventId = none)) }

/-- Replacement of one surviving row during changeset application: a
non-local row whose key has an entry in `toUpdate` is replaced by that
entry; local rows are untouched (spec §4.2). -/
def applyUpdate (toUpdate : List StoredEvent) (e : StoredEvent) : StoredEvent :=
  if e.source = EventSource.«local» then e
  else
    match findByKey toUpdate e.sourceEventId with
    | some u => u
    | none => e

/-- Modelled from the spec: applying a changeset to the stored set
(spec §4.2 and §6 `applyChangeset`): delete the rows listed in `toDelete`,
replace a non-local row by the `toUpdate` entry with its matching key, and
add the `toInsert` rows.  Local events are untouched. -/
def applyChangeset (stored : List StoredEvent) (cs : Changeset) : List StoredEvent :=
  (stored.filter (fun e => decide (e ∉ cs.toDelete))).map (applyUpdate cs.toUpdate) ++
    cs.toInsert

/-! Concrete inputs used by witnesses and counterexamples. -/

/-- A 401 upstream response (expired credential). -/
def resp401 : HttpResponse := { status := 401, items := none }

/-- A 503 upstream response (provider unavailable). -/
def resp503 : HttpResponse := { status := 503, items := none }

/-- An ordinary timed upstream event. -/
def geMeeting : GoogleCalendarEvent :=
  { id := "evt-1"
    summary := some "Standup"
    start := { dateTime := some "2024-01-01T10:00:00Z", date := none }
    «end» := { dateTime := some "2024-01-01T10:30:00Z", date := none }
    description := none
    location := none }

/-- An all-day upstream event: date-only `start`/`end`, no `dateTime`. -/
def geAllDay : GoogleCalendarEvent :=
  { id := "evt-2"
    summary := some "Holiday"
    start := { dateTime := none, date := some "2024-01-03" }
    «end» := { dateTime := none, date := some "2024-01-04" }
    description := none
    location := none }

/-- An upstream event carrying a present-but-empty `dateTime` next to a
date-only field. -/
def geEmptyDateTime : GoogleCalendarEvent :=
  { id := "evt-3"
    summary := some "Edge"
    start := { dateTime := some "", date := some "2024-01-03" }
    «end» := { dateTime := some "", date := some "2024-01-04" }
    description := none
    location := none }

/-- An upstream event with no `summary`. -/
def geNoSummary : GoogleCalendarEvent :=
  { id := "evt-4"
    summary := none
    start := { dateTime := some "2024-01-02T10:00:00Z", date := none }
    «end» := { dateTime := some "2024-01-02T11:00:00Z", date := none }
    description := none
    location := none }

/-- A 200 upstream response holding one ordinary event. -/
def respOk : HttpResponse := { status := 200, items := some [geMeeting] }

/-- A 200 upstream response whose body has no `items` field. -/
def respNoItems : HttpResponse := { status := 200, items := none }

/-- Fetched provider event with key 1, the fresh version of `st1ev`. -/
def f1ev : StoredEvent :=
  { id := "g-1", userId := "u", title := "Meeting", startAt := "2024-01-01T10:00Z",
    endAt := "2024-01-01T11:00Z", description := none, location := none,
    source := EventSource.google, sourceEventId := some "1", updatedAt := 5 }

/-- Fetched provider event with key 3, not yet stored. -/
def f3ev : StoredEvent :=
  { id := "g-3", userId := "u", title := "New", startAt := "2024-02-01T10:00Z",
    endAt := "2024-02-01T11:00Z", description := none, location := none,
    source := EventSource.google, sourceEventId := some "3", updatedAt := 5 }

/-- Stored provider event with key 1, with a stale title. -/
def st1ev : StoredEvent :=
  { id := "row-1", userId := "u", title := "Old Meeting", startAt := "2024-01-01T10:00Z",
    endAt := "2024-01-01T11:00Z", description := none, location := none,
    source := EventSource.google, sourceEventId := some "1", updatedAt := 1 }

/-- Stored provider event with key 2, no longer reported by the provider. -/
def st2ev : StoredEvent :=
  { id := "row-2", userId := "u", title := "Gone", startAt := "2024-01-05T10:00Z",
    endAt := "2024-01-05T11:00Z", description := none, location := none,
    source := EventSource.google, sourceEventId := some "2", updatedAt := 1 }

/-- A user-authored local event, which reconciliation must never touch. -/
def stLocalEv : StoredEvent :=
  { id := "row-L", userId := "u", title := "Mine", startAt := "2024-01-09T10:00Z",
    endAt := "2024-01-09T11:00Z", description := none, location := none,
    source := EventSource.«local», sourceEventId := none, updatedAt := 1 }

/-! Theorems.  First, supporting lemmas about the Reconciler model. -/

theorem reconcile_toInsert (stored fetched : List StoredEvent) (now : Nat) :
    (reconcile stored fetched now).toInsert =
      fetched.filter (fun f => decide (findByKey (nonLocal stored) f.sourceEventId = none)) :=
  rfl

theorem reconcile_toUpdate (stored fetched : List StoredEvent) (now : Nat) :
    (reconcile stored fetched now).toUpdate =
      fetched.filterMap (reconcileUpdate (nonLocal stored) now) :=
  rfl

theorem reconcile_toDelete (stored fetched : List StoredEvent) (now : Nat) :
    (reconcile stored fetched now).toDelete =
      (nonLocal stored).filter (fun st => decide (findByKey fetched st.sourceEventId = none)) :=
  rfl

theorem applyChangeset_eq (stored : List StoredEvent) (cs : Changeset) :
    applyChangeset stored cs =
      (stored.filter (fun e => decide (e ∉ cs.toDelete))).map (applyUpdate cs.toUpdate) ++
        cs.toInsert :=
  rfl

theorem sameFields_refl (a : StoredEvent) : sameFields a a = true := by
  simp [sameFields]

theorem sameFields_replace (f : StoredEvent) (i : String) (n : Nat) :
    sameFields { f with id := i, updatedAt := n } f = true := by
  simp [sameFields]

theorem mem_nonLocal {e : StoredEvent} {l : List StoredEvent} :
    e ∈ nonLocal l ↔ e ∈ l ∧ e.source ≠ EventSource.«local» := by
  simp [nonLocal]

theorem findByKey_eq_none_iff {l : List StoredEvent} {k : Option String} :
    findByKey l k = none ↔ ∀ e ∈ l, e.sourceEventId ≠ k := by
  simp [findByKey, List.find?_eq_none]

theorem findByKey_key {l : List StoredEvent} {k : Option String} {e : StoredEvent}
    (h : findByKey l k = some e) : e.sourceEventId = k := by
  unfold findByKey at h
  have h2 := List.find?_some h
  simp only [decide_eq_true_eq] at h2
  exact h2

theorem findByKey_mem {l : List StoredEvent} {k : Option String} {e : StoredEvent}
    (h : findByKey l k = some e) : e ∈ l := by
  unfold findByKey at h
  exact List.mem_of_find?_eq_some h

/-- Uniqueness invariant in action: in a list with pairwise distinct
`sourceEventId`s, two members with equal keys are equal. -/
theorem keys_inj {l : List StoredEvent}
    (h : (l.map StoredEvent.sourceEventId).Nodup) {a b : StoredEvent}
    (ha : a ∈ l) (hb : b ∈ l) (hab : a.sourceEventId = b.sourceEventId) : a = b :=
  List.inj_on_of_nodup_map h ha hb hab

/-- In a list with pairwise distinct keys, lookup of a member's key
returns that member. -/
theorem findByKey_self {l : List StoredEvent}
    (h : (l.map StoredEvent.sourceEventId).Nodup) {e : StoredEvent} (he : e ∈ l) :
    findByKey l e.sourceEventId = some e := by
  cases hf : findByKey l e.sourceEventId with
  | none => exact absurd rfl (findByKey_eq_none_iff.1 hf e he)
  | some a =>
      have ha := keys_inj h (findByKey_mem hf) he (findByKey_key hf)
      rw [ha]

theorem reconcileUpdate_eq_some {provStored : List StoredEvent} {now : Nat}
    {f u : StoredEvent} (h : reconcileUpdate provStored now f = some u) :
    ∃ st, findByKey provStored f.sourceEventId = some st ∧ sameFields st f = false ∧
      u = { f with id := st.id, updatedAt := now } := by
  unfold reconcileUpdate at h
  split at h
  · exact absurd h (by simp)
  next st hfind =>
    split at h
    · exact absurd h (by simp)
    next hs =>
      refine ⟨st, hfind, ?_, (Option.some.inj h).symm⟩
      cases hsf : sameFields st f
      · rfl
      · exact absurd hsf hs

theorem mem_toUpdate_decomp {stored fetched : List StoredEvent} {now : Nat}
    {u : StoredEvent} (hu : u ∈ (reconcile stored fetched now).toUpdate) :
    ∃ f, f ∈ fetched ∧ ∃ st, findByKey (nonLocal stored) f.sourceEventId = some st ∧
      sameFields st f = false ∧ u = { f with id := st.id, updatedAt := now } := by
  rw [reconcile_toUpdate, List.mem_filterMap] at hu
  obtain ⟨f, hf, hru⟩ := hu
  obtain ⟨st, h1, h2, h3⟩ := reconcileUpdate_eq_some hru
  exact ⟨f, hf, st, h1, h2, h3⟩

/-- After a changeset produced by `reconcile` is applied, every surviving
non-local row matches some fetched event on the key and agrees with it on
all compared content fields.  Needs the stored-side uniqueness invariant
(spec §3: at most one stored event per `(userId, source, sourceEventId)`). -/
theorem stored_after_apply_matches {stored fetched : List StoredEvent} {now : Nat}
    (Hs : ((nonLocal stored).map StoredEvent.sourceEventId).Nodup)
    {e' : StoredEvent}
    (he' : e' ∈ applyChangeset stored (reconcile stored fetched now))
    (hnl : e'.source ≠ EventSource.«local») :
    ∃ f, f ∈ fetched ∧ f.sourceEventId = e'.sourceEventId ∧ sameFields e' f = true := by
  rw [applyChangeset_eq, List.mem_append] at he'
  rcases he' with he' | he'
  · rw [List.mem_map] at he'
    obtain ⟨e, hef, heq⟩ := he'
    rw [List.mem_filter] at hef
    obtain ⟨hes, hend⟩ := hef
    have hnotdel : e ∉ (reconcile stored fetched now).toDelete := of_decide_eq_true hend
    unfold applyUpdate at heq
    by_cases hloc : e.source = EventSource.«local»
    · rw [if_pos hloc] at heq
      exact absurd (heq ▸ hloc) hnl
    · rw [if_neg hloc] at heq
      cases hfu : findByKey (reconcile stored fetched now).toUpdate e.sourceEventId with
      | some u =>
          simp only [hfu] at heq
          rw [← heq]
          obtain ⟨f, hf, st, hfind, hdiff, hueq⟩ := mem_toUpdate_decomp (findByKey_mem hfu)
          subst hueq
          exact ⟨f, hf, rfl, sameFields_replace f st.id now⟩
      | none =>
          simp only [hfu] at heq
          rw [← heq]
          have henl : e ∈ nonLocal stored := mem_nonLocal.2 ⟨hes, hloc⟩
          have hfnd : findByKey fetched e.sourceEventId ≠ none := by
            intro hno
            apply hnotdel
            rw [reconcile_toDelete, List.mem_filter]
            exact ⟨henl, decide_eq_true hno⟩
          cases hff : findByKey fetched e.sourceEventId with
          | none => exact absurd hff hfnd
          | some f =>
              have hf_mem : f ∈ fetched := findByKey_mem hff
              have hf_key : f.sourceEventId = e.sourceEventId := findByKey_key hff
              refine ⟨f, hf_mem, hf_key, ?_⟩
              by_contra hdiff
              have hdiff2 : sameFields e f = false := by
                cases hsf : sameFields e f
                · rfl
                · exact absurd hsf hdiff
              have hself : findByKey (nonLocal stored) f.sourceEventId = some e := by
                rw [hf_key]
                exact findByKey_self Hs henl
              have hu0 : ({ f with id := e.id, updatedAt := now } : StoredEvent) ∈
                  (reconcile stored fetched now).toUpdate := by
                rw [reconcile_toUpdate, List.mem_filterMap]
                refine ⟨f, hf_mem, ?_⟩
                simp [reconcileUpdate, hself, hdiff2]
              have hne := findByKey_eq_none_iff.1 hfu _ hu0
              exact hne (by simpa using hf_key)
  · rw [reconcile_toInsert, List.mem_filter] at he'
    exact ⟨e', he'.1, rfl, sameFields_refl e'⟩

/-- After a changeset produced by `reconcile` is applied, every fetched
event's key is present on a surviving non-local row.  Needs the fetched
events to be provider-tagged (never `local`). -/
theorem fetched_present_after_apply {stored fetched : List StoredEvent} (now : Nat)
    (Hf : ∀ f ∈ fetched, f.source ≠ EventSource.«local»)
    {f : StoredEvent} (hf : f ∈ fetched) :
    ∃ e', e' ∈ applyChangeset stored (reconcile stored fetched now) ∧
      e'.source ≠ EventSource.«local» ∧ e'.sourceEventId = f.sourceEventId := by
  cases hfind : findByKey (nonLocal stored) f.sourceEventId with
  | none =>
      refine ⟨f, ?_, Hf f hf, rfl⟩
      rw [applyChangeset_eq, List.mem_append]
      right
      rw [reconcile_toInsert, List.mem_filter]
      exact ⟨hf, decide_eq_true hfind⟩
  | some st =>
      have hst_mem : st ∈ nonLocal stored := findByKey_mem hfind
      have hstk : st.sourceEventId = f.sourceEventId := findByKey_key hfind
      obtain ⟨hst_stored, hst_nl⟩ := mem_nonLocal.1 hst_mem
      have hnotdel : st ∉ (reconcile stored fetched now).toDelete := by
        rw [reconcile_toDelete, List.mem_filter]
        rintro ⟨-, hd⟩
        exact (findByKey_eq_none_iff.1 (of_decide_eq_true hd) f hf) hstk.symm
      refine ⟨applyUpdate (reconcile stored fetched now).toUpdate st, ?_, ?_⟩
      · rw [applyChangeset_eq, List.mem_append]
        left
        rw [List.mem_map]
        refine ⟨st, ?_, rfl⟩
        rw [List.mem_filter]
        exact ⟨hst_stored, decide_eq_true hnotdel⟩
      · unfold applyUpdate
        rw [if_neg hst_nl]
        cases hfu : findByKey (reconcile stored fetched now).toUpdate st.sourceEventId with
        | none => exact ⟨hst_nl, hstk⟩
        | some u =>
            have hk : u.sourceEventId = st.sourceEventId := findByKey_key hfu
            obtain ⟨f₂, hf₂, st₂, -, -, hueq⟩ := mem_toUpdate_decomp (findByKey_mem hfu)
            refine ⟨?_, hk.trans hstk⟩
            rw [hueq]
            exact Hf f₂ hf₂

/-- The six components listed by `fieldValues` carry a normalized event's
entire information: two events with equal component lists are equal. -/
theorem fieldValues_injective (a b : CalendarEvent)
    (h : a.fieldValues = b.fieldValues) : a = b := by
  cases a
  cases b
  simp_all [CalendarEvent.fieldValues]

/-- C1: for every upstream response with a non-success status,
`fetchGoogleCalendarEvents` fails with the error annotated with the numeric
HTTP status code (`genericApiError status` is
`"Google Calendar API error: " ++ toString status`); for every response
with a success status it does not throw. -/
theorem fetch_fails_iff_not_ok (tok : String) (nowMs : Nat)
    (upstream : EventsRequest → HttpResponse) :
    ((upstream (buildEventsRequest tok nowMs)).ok = false →
      fetchGoogleCalendarEvents tok nowMs upstream =
        Except.error (genericApiError (upstream (buildEventsRequest tok nowMs)).status)) ∧
    ((upstream (buildEventsRequest tok nowMs)).ok = true →
      ∃ evs, fetchGoogleCalendarEvents tok nowMs upstream = Except.ok evs) := by
  constructor
  · intro h
    simp [fetchGoogleCalendarEvents, h]
  · intro h
    refine ⟨((upstream (buildEventsRequest tok nowMs)).items.getD []).map normalizeEvent, ?_⟩
    simp [fetchGoogleCalendarEvents, h]

/-- Witness for C1: a 401 response fails with the annotated error and a
200 response returns events. -/
theorem fetch_fails_iff_not_ok_witness :
    fetchGoogleCalendarEvents "token" 0 (fun _ => resp401) =
      Except.error (genericApiError 401) ∧
    ∃ evs, fetchGoogleCalendarEvents "token" 0 (fun _ => respOk) = Except.ok evs :=
  ⟨(fetch_fails_iff_not_ok "token" 0 (fun _ => resp401)).1 (by decide),
   (fetch_fails_iff_not_ok "token" 0 (fun _ => respOk)).2 (by decide)⟩

/-- C2 counterexample: the claim says a present `dateTime` is always used
in preference to `date`, but the code computes
`start.dateTime || start.date || ''` with JavaScript `||`, so a
present-but-empty `dateTime` falls through to `date`: on
`geEmptyDateTime`, whose `start.dateTime` is present (`some ""`), the
normalized start is the `date` value `"2024-01-03"`, not the `dateTime`
value `""`. -/
theorem datetime_preference_counterexample :
    geEmptyDateTime.start.dateTime = some "" ∧
    (normalizeEvent geEmptyDateTime).start = "2024-01-03" ∧
    (normalizeEvent geEmptyDateTime).start ≠ "" := by
  refine ⟨rfl, rfl, ?_⟩
  decide

/-- C2 amended: a date-only start or end (no `dateTime`) is preserved
verbatim with no time-of-day component introduced, and a present and
non-empty `dateTime` is used in preference to `date`. -/
theorem allday_verbatim_nonempty_datetime_preferred (e : GoogleCalendarEvent) :
    (e.start.dateTime = none → ∀ d, e.start.date = some d →
      (normalizeEvent e).start = d) ∧
    (∀ dt, e.start.dateTime = some dt → dt ≠ "" → (normalizeEvent e).start = dt) ∧
    (e.«end».dateTime = none → ∀ d, e.«end».date = some d →
      (normalizeEvent e).«end» = d) ∧
    (∀ dt, e.«end».dateTime = some dt → dt ≠ "" → (normalizeEvent e).«end» = dt) := by
  refine ⟨?_, ?_, ?_, ?_⟩
  · intro h d hd
    by_cases hd0 : d = "" <;> simp [normalizeEvent, jsOr, h, hd, hd0]
  · intro dt h hne
    simp [normalizeEvent, jsOr, h, hne]
  · intro h d hd
    by_cases hd0 : d = "" <;> simp [normalizeEvent, jsOr, h, hd, hd0]
  · intro dt h hne
    simp [normalizeEvent, jsOr, h, hne]

/-- Witness for the amended C2: the all-day event `geAllDay` round-trips
its date strings verbatim, and `geMeeting`'s non-empty `dateTime` is
used. -/
theorem allday_verbatim_nonempty_datetime_preferred_witness :
    (normalizeEvent geAllDay).start = "2024-01-03" ∧
    (normalizeEvent geAllDay).«end» = "2024-01-04" ∧
    (normalizeEvent geMeeting).start = "2024-01-01T10:00:00Z" :=
  ⟨(allday_verbatim_nonempty_datetime_preferred geAllDay).1 rfl "2024-01-03" rfl,
   (allday_verbatim_nonempty_datetime_preferred geAllDay).2.2.1 rfl "2024-01-04" rfl,
   (allday_verbatim_nonempty_datetime_preferred geMeeting).2.1
     "2024-01-01T10:00:00Z" rfl (by decide)⟩

/-- C3: a missing or empty `summary` normalizes to the title
`"(No title)"`; a non-empty `summary` becomes the title verbatim. -/
theorem missing_title_fallback (e : GoogleCalendarEvent) :
    ((e.summary = none ∨ e.summary = some "") →
      (normalizeEvent e).title = "(No title)") ∧
    (∀ s, e.summary = some s → s ≠ "" → (normalizeEvent e).title = s) := by
  constructor
  · intro h
    rcases h with h | h <;> simp [normalizeEvent, jsOr, h]
  · intro s h hne
    simp [normalizeEvent, jsOr, h, hne]

/-- Witness for C3: `geNoSummary` has no summary and gets the fallback
title; `geMeeting`'s summary is kept. -/
theorem missing_title_fallback_witness :
    (normalizeEvent geNoSummary).title = "(No title)" ∧
    (normalizeEvent geMeeting).title = "Standup" :=
  ⟨(missing_title_fallback geNoSummary).1 (Or.inl rfl),
   (missing_title_fallback geMeeting).2 "Standup" rfl (by decide)⟩

/-- C4 counterexample: the claim says an expired credential (HTTP 401)
fails with an auth-expired error distinguishable in kind from the generic
failure raised for other non-success statuses.  The code has a single
throw site: at 401 the failure equals `genericApiError 401`, exactly the
same generic status-annotated form produced at 503 — there is no distinct
auth-expired outcome. -/
theorem auth_failure_not_distinct_counterexample :
    fetchGoogleCalendarEvents "token" 0 (fun _ => resp401) =
      Except.error (genericApiError 401) ∧
    fetchGoogleCalendarEvents "token" 0 (fun _ => resp503) =
      Except.error (genericApiError 503) ∧
    genericApiError 401 = "Google Calendar API error: 401" ∧
    genericApiError 503 = "Google Calendar API error: 503" :=
  ⟨rfl, rfl, rfl, rfl⟩

/-- C4 amended: every non-success status, an expired credential's 401
included, fails with the one generic error annotated with the status
code; the status number in the message is the only distinction between an
auth failure and any other failure. -/
theorem all_failures_share_generic_form (tok : String) (nowMs : Nat)
    (upstream : EventsRequest → HttpResponse)
    (h : (upstream (buildEventsRequest tok nowMs)).ok = false) :
    fetchGoogleCalendarEvents tok nowMs upstream =
      Except.error (genericApiError (upstream (buildEventsRequest tok nowMs)).status) := by
  simp [fetchGoogleCalendarEvents, h]

/-- Witness for the amended C4: 401 and 503 both produce the generic
annotated error. -/
theorem all_failures_share_generic_form_witness :
    fetchGoogleCalendarEvents "token" 0 (fun _ => resp401) =
      Except.error (genericApiError 401) ∧
    fetchGoogleCalendarEvents "token" 0 (fun _ => resp503) =
      Except.error (genericApiError 503) :=
  ⟨all_failures_share_generic_form "token" 0 (fun _ => resp401) (by decide),
   all_failures_share_generic_form "token" 0 (fun _ => resp503) (by decide)⟩

/-- C5 counterexample: the claim says every returned event is tagged with
a `source` field (one of local, google, icloud) and a `sourceEventId`
field beside its own id.  `fieldValues` lists a returned event's
components exhaustively (`fieldValues_injective`): on the concrete fetch
below the single returned event's components are its id, title, start,
end and two absent optionals — no component is a source tag and there is
no seventh component recording a source event id; the foreign id
`"evt-1"` appears only as the event's own `id`. -/
theorem no_source_tag_counterexample :
    fetchGoogleCalendarEvents "token" 0 (fun _ => respOk) =
      Except.ok [normalizeEvent geMeeting] ∧
    (normalizeEvent geMeeting).fieldValues =
      [some "evt-1", some "Standup", some "2024-01-01T10:00:00Z",
       some "2024-01-01T10:30:00Z", none, none] ∧
    some "google" ∉ (normalizeEvent geMeeting).fieldValues ∧
    some "local" ∉ (normalizeEvent geMeeting).fieldValues ∧
    some "icloud" ∉ (normalizeEvent geMeeting).fieldValues := by
  refine ⟨rfl, rfl, ?_, ?_, ?_⟩ <;> decide

/-- C5 amended: a normalized event carries only id, title, start, end and
the optional description and location — its six `fieldValues` components
determine it completely, so it holds no `source` or `sourceEventId` tag —
and the foreign system's id is recorded as the event's own `id`. -/
theorem normalized_event_untagged (e : GoogleCalendarEvent) :
    (normalizeEvent e).id = e.id ∧
    (∀ e' : CalendarEvent,
      CalendarEvent.fieldValues e' = CalendarEvent.fieldValues (normalizeEvent e) →
      e' = normalizeEvent e) :=
  ⟨rfl, fun e' h => fieldValues_injective e' (normalizeEvent e) h⟩

/-- Witness for the amended C5 at the concrete event `geMeeting`. -/
theorem normalized_event_untagged_witness :
    (normalizeEvent geMeeting).id = geMeeting.id ∧
    normalizeEvent geMeeting = normalizeEvent geMeeting :=
  ⟨(normalized_event_untagged geMeeting).1,
   (normalized_event_untagged geMeeting).2 (normalizeEvent geMeeting) rfl⟩

/-- C6: the request issued by `fetchGoogleCalendarEvents` has
`timeMin = now` and `timeMax = now + 90 days` in milliseconds, and the
fetch consults the network only at that one request (its result depends on
`upstream` only through `upstream (buildEventsRequest tok nowMs)`). -/
theorem bounded_time_window (tok : String) (nowMs : Nat) :
    (buildEventsRequest tok nowMs).timeMinMs = nowMs ∧
    (buildEventsRequest tok nowMs).timeMaxMs = nowMs + 90 * 24 * 60 * 60 * 1000 ∧
    (∀ u₁ u₂ : EventsRequest → HttpResponse,
      u₁ (buildEventsRequest tok nowMs) = u₂ (buildEventsRequest tok nowMs) →
      fetchGoogleCalendarEvents tok nowMs u₁ = fetchGoogleCalendarEvents tok nowMs u₂) := by
  refine ⟨rfl, rfl, ?_⟩
  intro u₁ u₂ h
  simp [fetchGoogleCalendarEvents, h]

/-- Witness for C6 at a concrete token and clock instant. -/
theorem bounded_time_window_witness :
    (buildEventsRequest "token" 1000).timeMinMs = 1000 ∧
    (buildEventsRequest "token" 1000).timeMaxMs = 1000 + 90 * 24 * 60 * 60 * 1000 ∧
    fetchGoogleCalendarEvents "token" 1000 (fun _ => respOk) =
      fetchGoogleCalendarEvents "token" 1000 (fun _ => respOk) :=
  ⟨(bounded_time_window "token" 1000).1,
   (bounded_time_window "token" 1000).2.1,
   (bounded_time_window "token" 1000).2.2 (fun _ => respOk) (fun _ => respOk) rfl⟩

/-- C7: the issued request sets `singleEvents = "true"` and
`orderBy = "startTime"`, and on a success response the returned list is
exactly the upstream `items` mapped elementwise through `normalizeEvent`,
so the provider's order is preserved. -/
theorem single_events_order_preserved (tok : String) (nowMs : Nat)
    (upstream : EventsRequest → HttpResponse)
    (h : (upstream (buildEventsRequest tok nowMs)).ok = true) :
    (buildEventsRequest tok nowMs).singleEvents = "true" ∧
    (buildEventsRequest tok nowMs).orderBy = "startTime" ∧
    fetchGoogleCalendarEvents tok nowMs upstream =
      Except.ok (((upstream (buildEventsRequest tok nowMs)).items.getD []).map
        normalizeEvent) := by
  refine ⟨rfl, rfl, ?_⟩
  simp [fetchGoogleCalendarEvents, h]

/-- Witness for C7 at the concrete 200 response `respOk`. -/
theorem single_events_order_preserved_witness :
    (buildEventsRequest "token" 0).singleEvents = "true" ∧
    (buildEventsRequest "token" 0).orderBy = "startTime" ∧
    fetchGoogleCalendarEvents "token" 0 (fun _ => respOk) =
      Except.ok ((respOk.items.getD []).map normalizeEvent) :=
  single_events_order_preserved "token" 0 (fun _ => respOk) (by decide)

/-- C9: a success response whose body lacks an `items` array yields the
empty event list rather than a throw. -/
theorem missing_items_yields_empty (tok : String) (nowMs : Nat)
    (upstream : EventsRequest → HttpResponse)
    (h1 : (upstream (buildEventsRequest tok nowMs)).ok = true)
    (h2 : (upstream (buildEventsRequest tok nowMs)).items = none) :
    fetchGoogleCalendarEvents tok nowMs upstream = Except.ok [] := by
  simp [fetchGoogleCalendarEvents, h1, h2]

/-- Witness for C9 at the concrete 200 response with no `items`. -/
theorem missing_items_yields_empty_witness :
    fetchGoogleCalendarEvents "token" 0 (fun _ => respNoItems) = Except.ok [] :=
  missing_items_yields_empty "token" 0 (fun _ => respNoItems) (by decide) (by decide)

/-- C10: the GET handler always returns a response: a falsy access token
(absent session, absent token, or empty token) yields 401 Unauthorized
without invoking the provider fetch; with a token present, a provider
throw yields 500 and a provider success yields 200 with the events. -/
theorem route_never_propagates (session : Option Session)
    (fr : Except String (List CalendarEvent)) :
    (jsTruthy (session.bind Session.accessToken) = false →
      GET session fr =
        { status := 401, body := RouteBody.errJson "Unauthorized", fetchCalled := false }) ∧
    (jsTruthy (session.bind Session.accessToken) = true →
      (∀ msg, fr = Except.error msg →
        GET session fr =
          { status := 500, body := RouteBody.errJson "Failed to fetch events",
            fetchCalled := true }) ∧
      (∀ evs, fr = Except.ok evs →
        GET session fr =
          { status := 200, body := RouteBody.eventsJson evs, fetchCalled := true })) := by
  constructor
  · intro h
    simp [GET, h]
  · intro h
    constructor
    · intro msg hmsg
      simp [GET, h, hmsg]
    · intro evs hevs
      simp [GET, h, hevs]

/-- Witness for C10: a session without a token gets 401 with no fetch; a
session with a token gets 500 on a provider throw and 200 with the events
on success. -/
theorem route_never_propagates_witness :
    GET none (Except.ok []) =
      { status := 401, body := RouteBody.errJson "Unauthorized", fetchCalled := false } ∧
    GET (some { accessToken := some "tok" }) (Except.error "boom") =
      { status := 500, body := RouteBody.errJson "Failed to fetch events",
        fetchCalled := true } ∧
    GET (some { accessToken := some "tok" }) (Except.ok [normalizeEvent geMeeting]) =
      { status := 200, body := RouteBody.eventsJson [normalizeEvent geMeeting],
        fetchCalled := true } :=
  ⟨(route_never_propagates none (Except.ok [])).1 (by decide),
   ((route_never_propagates (some { accessToken := some "tok" })
      (Except.error "boom")).2 (by decide)).1 "boom" rfl,
   ((route_never_propagates (some { accessToken := some "tok" })
      (Except.ok [normalizeEvent geMeeting])).2 (by decide)).2
      [normalizeEvent geMeeting] rfl⟩

/-- C8: the Reconciler is idempotent — reconciling the same fetched set a
second time, against the stored set that results from applying the first
changeset, produces an empty changeset.  The hypotheses are the spec's
invariants: fetched events are provider-tagged (never `local`) with
pairwise distinct `sourceEventId`s, and the stored non-local events have
pairwise distinct `sourceEventId`s (spec §3: at most one stored event per
`(userId, source, sourceEventId)`). -/
theorem reconcile_idempotent (stored fetched : List StoredEvent) (now now2 : Nat)
    (Hf1 : ∀ f ∈ fetched, f.source ≠ EventSource.«local»)
    (Hf2 : (fetched.map StoredEvent.sourceEventId).Nodup)
    (Hs : ((nonLocal stored).map StoredEvent.sourceEventId).Nodup) :
    reconcile (applyChangeset stored (reconcile stored fetched now)) fetched now2 =
      { toInsert := [], toUpdate := [], toDelete := [] } := by
  have hfind2 : ∀ f ∈ fetched,
      ∃ st', findByKey (nonLocal (applyChangeset stored (reconcile stored fetched now)))
          f.sourceEventId = some st' ∧ sameFields st' f = true := by
    intro f hf
    obtain ⟨e', he', henl, hek⟩ := fetched_present_after_apply now Hf1 hf
    have he'nl : e' ∈ nonLocal (applyChangeset stored (reconcile stored fetched now)) :=
      mem_nonLocal.2 ⟨he', henl⟩
    cases hfi : findByKey (nonLocal (applyChangeset stored (reconcile stored fetched now)))
        f.sourceEventId with
    | none => exact absurd hek (findByKey_eq_none_iff.1 hfi e' he'nl)
    | some st' =>
        refine ⟨st', rfl, ?_⟩
        have hst'k : st'.sourceEventId = f.sourceEventId := findByKey_key hfi
        obtain ⟨hm2, hnl2⟩ := mem_nonLocal.1 (findByKey_mem hfi)
        obtain ⟨f₂, hf₂, hf₂k, hsame⟩ := stored_after_apply_matches Hs hm2 hnl2
        have hff : f₂ = f := keys_inj Hf2 hf₂ hf (by rw [hf₂k, hst'k])
        rwa [hff] at hsame
  have h1 : (reconcile (applyChangeset stored (reconcile stored fetched now)) fetched
      now2).toInsert = [] := by
    rw [reconcile_toInsert, List.filter_eq_nil_iff]
    intro f hf
    obtain ⟨st', hfi, -⟩ := hfind2 f hf
    simp [hfi]
  have h2 : (reconcile (applyChangeset stored (reconcile stored fetched now)) fetched
      now2).toUpdate = [] := by
    rw [reconcile_toUpdate, List.filterMap_eq_nil_iff]
    intro f hf
    obtain ⟨st', hfi, hsame⟩ := hfind2 f hf
    simp [reconcileUpdate, hfi, hsame]
  have h3 : (reconcile (applyChangeset stored (reconcile stored fetched now)) fetched
      now2).toDelete = [] := by
    rw [reconcile_toDelete, List.filter_eq_nil_iff]
    intro st' hst'
    obtain ⟨hm2, hnl2⟩ := mem_nonLocal.1 hst'
    obtain ⟨f, hf, hfk, -⟩ := stored_after_apply_matches Hs hm2 hnl2
    simp only [decide_eq_true_eq]
    intro hnone
    exact (findByKey_eq_none_iff.1 hnone f hf) hfk
  cases hrec : reconcile (applyChangeset stored (reconcile stored fetched now)) fetched now2
  rw [hrec] at h1 h2 h3
  simp only at h1 h2 h3
  rw [h1, h2, h3]

/-- Witness for C8: on a concrete stored set holding a local event, a
stale provider row and a vanished provider row, and a fetched set holding
an updated version and a new event, the second reconciliation after
applying the first changeset is empty. -/
theorem reconcile_idempotent_witness :
    (∀ f ∈ [f1ev, f3ev], f.source ≠ EventSource.«local») ∧
    (([f1ev, f3ev].map StoredEvent.sourceEventId).Nodup) ∧
    (((nonLocal [stLocalEv, st1ev, st2ev]).map StoredEvent.sourceEventId).Nodup) ∧
    reconcile (applyChangeset [stLocalEv, st1ev, st2ev]
        (reconcile [stLocalEv, st1ev, st2ev] [f1ev, f3ev] 7)) [f1ev, f3ev] 9 =
      { toInsert := [], toUpdate := [], toDelete := [] } :=
  ⟨by decide, by decide, by decide,
   reconcile_idempotent [stLocalEv, st1ev, st2ev] [f1ev, f3ev] 7 9
     (by decide) (by decide) (by decide)⟩

end LocalCal
